import Mathlib

/-!
Verification of the `beacon_constrained` contribution binary of the
powersoftau ceremony (phase2-bn254).

The development shallowly embeds the binary's `main` (src/powersoftau/src/bin/
beacon_constrained.rs) together with the SHA-256 based randomness-beacon
derivation it performs.  Bytes are naturals below 256, 32-bit machine words are
naturals reduced modulo 2^32, files are lists of bytes, and the file system is
a partial map from path names to file contents.  The library pieces whose code
lives outside this tree (BLAKE2b accumulator hashing, the keypair sampler, the
batched transform, public-key serialization, ceremony size constants) are
threaded through as explicit parameters, modelled from the specification.
-/

/-! ## SHA-256 over byte lists

Faithful FIPS 180-4 SHA-256: the `crypto::sha2::Sha256` digest the beacon loop
applies to its running 32-byte state.  Words are naturals reduced mod 2^32. -/

/-- Reduction of a natural to a 32-bit machine word. -/
def w32 (x : Nat) : Nat := x % 4294967296

/-- Right rotation of a 32-bit word by `n` bits. -/
def rotr32 (n x : Nat) : Nat := w32 ((x >>> n) ||| (x <<< (32 - n)))

/-- Bitwise choice function of SHA-256 (`Ch`), with 32-bit complement. -/
def shaCh (x y z : Nat) : Nat := (x &&& y) ^^^ ((x ^^^ 4294967295) &&& z)

/-- Bitwise majority function of SHA-256 (`Maj`). -/
def shaMaj (x y z : Nat) : Nat := (x &&& y) ^^^ (x &&& z) ^^^ (y &&& z)

/-- Big sigma-0 compression function. -/
def shaS0 (x : Nat) : Nat := rotr32 2 x ^^^ rotr32 13 x ^^^ rotr32 22 x

/-- Big sigma-1 compression function. -/
def shaS1 (x : Nat) : Nat := rotr32 6 x ^^^ rotr32 11 x ^^^ rotr32 25 x

/-- Small sigma-0 message-schedule function. -/
def shas0 (x : Nat) : Nat := rotr32 7 x ^^^ rotr32 18 x ^^^ (x >>> 3)

/-- Small sigma-1 message-schedule function. -/
def shas1 (x : Nat) : Nat := rotr32 17 x ^^^ rotr32 19 x ^^^ (x >>> 10)

/-- The 64 SHA-256 round constants. -/
def shaK : List Nat :=
  [1116352408, 1899447441, 3049323471, 3921009573, 961987163,
   1508970993, 2453635748, 2870763221, 3624381080, 310598401,
   607225278, 1426881987, 1925078388, 2162078206, 2614888103,
   3248222580, 3835390401, 4022224774, 264347078, 604807628,
   770255983, 1249150122, 1555081692, 1996064986, 2554220882,
   2821834349, 2952996808, 3210313671, 3336571891, 3584528711,
   113926993, 338241895, 666307205, 773529912, 1294757372,
   1396182291, 1695183700, 1986661051, 2177026350, 2456956037,
   2730485921, 2820302411, 3259730800, 3345764771, 3516065817,
   3600352804, 4094571909, 275423344, 430227734, 506948616,
   659060556, 883997877, 958139571, 1322822218, 1537002063,
   1747873779, 1955562222, 2024104815, 2227730452, 2361852424,
   2428436474, 2756734187, 3204031479, 3329325298]

/-- The SHA-256 initial hash value, eight 32-bit words. -/
def shaH0 : List Nat :=
  [1779033703, 3144134277, 1013904242, 2773480762,
   1359893119, 2600822924, 528734635, 1541459225]

/-- Group a byte list into 32-bit words, big-endian; a trailing fragment of
fewer than four bytes is dropped (never arises on padded input). -/
def toWordsBE : List Nat → List Nat
  | b0 :: b1 :: b2 :: b3 :: rest =>
      (((b0 * 256 + b1) * 256 + b2) * 256 + b3) :: toWordsBE rest
  | _ => []

/-- Extend a 16-word block schedule by `k` further words. -/
def extendSchedule : List Nat → Nat → List Nat
  | ws, 0 => ws
  | ws, k + 1 =>
      let t := ws.length
      let w := w32 (shas1 (ws.getD (t - 2) 0) + ws.getD (t - 7) 0 +
                    shas0 (ws.getD (t - 15) 0) + ws.getD (t - 16) 0)
      extendSchedule (ws ++ [w]) k

/-- The eight working registers of the SHA-256 compression loop. -/
structure ShaRegs where
  a : Nat
  b : Nat
  c : Nat
  d : Nat
  e : Nat
  f : Nat
  g : Nat
  h : Nat
deriving DecidableEq

/-- One SHA-256 compression round with round constant `kt` and schedule word
`wt`. -/
def compressRound (st : ShaRegs) (kt wt : Nat) : ShaRegs :=
  let t1 := w32 (st.h + shaS1 st.e + shaCh st.e st.f st.g + kt + wt)
  let t2 := w32 (shaS0 st.a + shaMaj st.a st.b st.c)
  ⟨w32 (t1 + t2), st.a, st.b, st.c, w32 (st.d + t1), st.e, st.f, st.g⟩

/-- Run the 64 compression rounds over paired round constants and schedule
words. -/
def compressRounds : ShaRegs → List (Nat × Nat) → ShaRegs
  | st, [] => st
  | st, (kt, wt) :: rest => compressRounds (compressRound st kt wt) rest

/-- Process a single 64-byte block, updating the eight chaining words. -/
def processBlock (H : List Nat) (block : List Nat) : List Nat :=
  let ws := extendSchedule (toWordsBE block) 48
  let st0 : ShaRegs :=
    ⟨H.getD 0 0, H.getD 1 0, H.getD 2 0, H.getD 3 0,
     H.getD 4 0, H.getD 5 0, H.getD 6 0, H.getD 7 0⟩
  let st := compressRounds st0 (shaK.zip ws)
  [w32 (H.getD 0 0 + st.a), w32 (H.getD 1 0 + st.b),
   w32 (H.getD 2 0 + st.c), w32 (H.getD 3 0 + st.d),
   w32 (H.getD 4 0 + st.e), w32 (H.getD 5 0 + st.f),
   w32 (H.getD 6 0 + st.g), w32 (H.getD 7 0 + st.h)]

/-- Split a byte list into 64-byte chunks; the fuel argument bounds the
recursion and is instantiated with the list length, which always suffices. -/
def chunks64 : Nat → List Nat → List (List Nat)
  | 0, _ => []
  | _, [] => []
  | fuel + 1, l => l.take 64 :: chunks64 fuel (l.drop 64)

/-- The 8-byte big-endian encoding of a 64-bit length field. -/
def u64be (n : Nat) : List Nat :=
  [n / 72057594037927936 % 256, n / 281474976710656 % 256,
   n / 1099511627776 % 256, n / 4294967296 % 256,
   n / 16777216 % 256, n / 65536 % 256, n / 256 % 256, n % 256]

/-- SHA-256 padding: a 0x80 byte, zeros to 56 mod 64, then the bit length. -/
def padMessage (msg : List Nat) : List Nat :=
  msg ++ [128] ++ List.replicate ((119 - msg.length % 64) % 64) 0 ++
    u64be (8 * msg.length)

/-- The 4-byte big-endian encoding of a 32-bit word. -/
def wordBytesBE (w : Nat) : List Nat :=
  [w / 16777216 % 256, w / 65536 % 256, w / 256 % 256, w % 256]

/-- SHA-256 of a byte list: pad, compress each 64-byte block, emit the eight
chaining words big-endian. -/
def sha256 (msg : List Nat) : List Nat :=
  let padded := padMessage msg
  let Hf := (chunks64 padded.length padded).foldl processBlock shaH0
  (Hf.map wordBytesBE).flatten

theorem processBlock_length (H block : List Nat) :
    (processBlock H block).length = 8 := by
  simp [processBlock]

theorem foldl_processBlock_length (cs : List (List Nat)) :
    ∀ H : List Nat, H.length = 8 → (cs.foldl processBlock H).length = 8 := by
  induction cs with
  | nil => intro H h; simpa using h
  | cons c cs ih =>
      intro H h
      simpa [List.foldl_cons] using ih (processBlock H c) (processBlock_length H c)

theorem flatten_map_wordBytesBE_length (l : List Nat) :
    ((l.map wordBytesBE).flatten).length = 4 * l.length := by
  induction l with
  | nil => simp
  | cons x xs ih => simp [wordBytesBE, ih]; omega

/-- A SHA-256 digest is exactly 32 bytes. -/
theorem sha256_length (msg : List Nat) : (sha256 msg).length = 32 := by
  have h8 : ((chunks64 (padMessage msg).length (padMessage msg)).foldl
      processBlock shaH0).length = 8 :=
    foldl_processBlock_length _ shaH0 (by simp [shaH0])
  simp only [sha256]
  rw [flatten_map_wordBytesBE_length, h8]

/-! ## The randomness-beacon derivation

Embedding of lines 42–90 of `beacon_constrained.rs`: starting from a fixed
32-byte block hash, the loop runs `2^N` iterations of `cur := SHA-256(cur)`,
and at every index `i` with `i % 2^(N-10) = 0` it prints the state *before*
hashing (so checkpoint 0 is the unhashed seed); after the loop the final
digest is printed and read as eight big-endian 32-bit words seeding a
ChaCha generator. -/

/-- The fixed beacon seed: the Bitcoin block hash of block #564321, the
32-byte hex constant compiled into the binary. -/
def beaconSeedBytes : List Nat :=
  [0x00, 0x00, 0x00, 0x00, 0x00, 0x00, 0x00, 0x00,
   0x00, 0x0a, 0x55, 0x8a, 0x61, 0xdd, 0xc8, 0xee,
   0x4e, 0x48, 0x8d, 0x64, 0x7a, 0x74, 0x7f, 0xe4,
   0xdc, 0xc3, 0x62, 0xfe, 0x20, 0x26, 0xc6, 0x20]

/-- The deployed iteration exponent: `const N: u64 = 10`. -/
def beaconN : Nat := 10

/-- One state of the beacon loop: the iteration counter, the running 32-byte
hash, and the checkpoints printed so far (index paired with the state printed
there). -/
structure BeaconSt where
  i : Nat
  cur : List Nat
  checkpoints : List (Nat × List Nat)
deriving DecidableEq

/-- One iteration of the beacon loop body at exponent `n`: print the current
state when the index is divisible by `2^(n-10)`, then hash it. -/
def beaconStepF (n : Nat) (s : BeaconSt) : BeaconSt :=
  { i := s.i + 1
    cur := sha256 s.cur
    checkpoints :=
      s.checkpoints ++ (if s.i % 2 ^ (n - 10) == 0 then [(s.i, s.cur)] else []) }

/-- The loop's entry state for a given seed. -/
def beaconInit (seed : List Nat) : BeaconSt := ⟨0, seed, []⟩

/-- The whole beacon loop: `2^n` iterations of the body from the seed. -/
def beaconLoop (n : Nat) (seed : List Nat) : BeaconSt :=
  (beaconStepF n)^[2 ^ n] (beaconInit seed)

/-- The final beacon digest of the deployed binary. -/
def beaconFinalDigest : List Nat := (beaconLoop beaconN beaconSeedBytes).cur

theorem beaconStepF_iterate_cur (n k : Nat) (st : BeaconSt) :
    ((beaconStepF n)^[k] st).cur = sha256^[k] st.cur := by
  induction k with
  | zero => rfl
  | succ k ih =>
      rw [Function.iterate_succ_apply', Function.iterate_succ_apply']
      simp [beaconStepF, ih]

theorem beaconStepF_iterate_i (n k : Nat) (st : BeaconSt) :
    ((beaconStepF n)^[k] st).i = st.i + k := by
  induction k with
  | zero => rfl
  | succ k ih =>
      rw [Function.iterate_succ_apply']
      simp [beaconStepF, ih]; omega

theorem beaconStepF_iterate_checkpoints (n : Nat) (seed : List Nat) (k : Nat) :
    ((beaconStepF n)^[k] (beaconInit seed)).checkpoints =
      ((List.range k).filter (fun i => i % 2 ^ (n - 10) == 0)).map
        (fun i => (i, sha256^[i] seed)) := by
  induction k with
  | zero => rfl
  | succ k ih =>
      rw [Function.iterate_succ_apply']
      have hi : ((beaconStepF n)^[k] (beaconInit seed)).i = k := by
        simpa [beaconInit] using beaconStepF_iterate_i n k (beaconInit seed)
      have hc : ((beaconStepF n)^[k] (beaconInit seed)).cur = sha256^[k] seed := by
        simpa [beaconInit] using beaconStepF_iterate_cur n k (beaconInit seed)
      by_cases hk : k % 2 ^ (n - 10) = 0
      · simp [beaconStepF, ih, hi, hc, List.range_succ, List.filter_append, hk]
      · simp [beaconStepF, ih, hi, hc, List.range_succ, List.filter_append, hk]

/-! ## Reading the final digest as ChaCha seed words

Embedding of lines 80–89: the final 32-byte digest is consumed by eight
`read_u32::<BigEndian>()` calls filling the `[u32; 8]` ChaCha seed. -/

/-- One `read_u32::<BigEndian>` step: split four big-endian bytes off the
front, or fail when fewer than four bytes remain. -/
def readU32BE : List Nat → Option (Nat × List Nat)
  | b0 :: b1 :: b2 :: b3 :: rest =>
      some (((b0 * 256 + b1) * 256 + b2) * 256 + b3, rest)
  | _ => none

/-- The seed-filling loop: `k` successive big-endian u32 reads. -/
def readSeedWords : Nat → List Nat → Option (List Nat)
  | 0, _ => some []
  | k + 1, digest =>
      match readU32BE digest with
      | some (w, rest) => (readSeedWords k rest).map (fun ws => w :: ws)
      | none => none

/-- The big-endian 32-bit word starting at byte offset `4*j` of a digest. -/
def beWordAt (d : List Nat) (j : Nat) : Nat :=
  ((d.getD (4 * j) 0 * 256 + d.getD (4 * j + 1) 0) * 256 +
    d.getD (4 * j + 2) 0) * 256 + d.getD (4 * j + 3) 0

/-- The ChaCha seed words of the deployed beacon (the `expect` in the source
never fires because the digest always holds 32 bytes, as proved below). -/
def beaconRngSeedWords : List Nat := (readSeedWords 8 beaconFinalDigest).getD []

theorem getD_cons4 (b0 b1 b2 b3 : Nat) (rest : List Nat) (m : Nat) :
    (b0 :: b1 :: b2 :: b3 :: rest).getD (m + 4) 0 = rest.getD m 0 := by
  have h : m + 4 = (((m + 1) + 1) + 1) + 1 := by omega
  rw [h]
  simp [List.getD_cons_succ]

theorem beWordAt_cons4 (b0 b1 b2 b3 : Nat) (rest : List Nat) (j : Nat) :
    beWordAt (b0 :: b1 :: b2 :: b3 :: rest) (j + 1) = beWordAt rest j := by
  have h0 : 4 * (j + 1) = 4 * j + 4 := by omega
  have h1 : 4 * j + 4 + 1 = 4 * j + 1 + 4 := by omega
  have h2 : 4 * j + 4 + 2 = 4 * j + 2 + 4 := by omega
  have h3 : 4 * j + 4 + 3 = 4 * j + 3 + 4 := by omega
  rw [beWordAt, beWordAt, h0, h1, h2, h3, getD_cons4, getD_cons4, getD_cons4,
    getD_cons4]

/-- The seed-filling loop succeeds on a long-enough digest and yields exactly
the `k` big-endian words at offsets `0, 4, 8, …`. -/
theorem readSeedWords_spec (k : Nat) :
    ∀ d : List Nat, 4 * k ≤ d.length →
      readSeedWords k d = some ((List.range k).map (beWordAt d)) := by
  induction k with
  | zero => intro d _; rfl
  | succ k ih =>
      intro d hd
      match d with
      | [] => simp at hd
      | [b0] => simp at hd; omega
      | [b0, b1] => simp at hd; omega
      | [b0, b1, b2] => simp at hd; omega
      | b0 :: b1 :: b2 :: b3 :: rest =>
          have hrest : 4 * k ≤ rest.length := by
            simp [List.length_cons] at hd; omega
          have hstep : readSeedWords (k + 1) (b0 :: b1 :: b2 :: b3 :: rest) =
              (readSeedWords k rest).map
                (fun ws => (((b0 * 256 + b1) * 256 + b2) * 256 + b3) :: ws) := by
            rfl
          rw [hstep, ih rest hrest]
          have hhead : beWordAt (b0 :: b1 :: b2 :: b3 :: rest) 0 =
              ((b0 * 256 + b1) * 256 + b2) * 256 + b3 := by
            simp [beWordAt]
          simp [List.range_succ_eq_map, hhead, beWordAt_cons4,
            Function.comp]

/-- The deployed final digest is 32 bytes long. -/
theorem beaconFinalDigest_length : beaconFinalDigest.length = 32 := by
  have h : beaconFinalDigest = sha256^[2 ^ beaconN] beaconSeedBytes := by
    simpa [beaconInit] using
      beaconStepF_iterate_cur beaconN (2 ^ beaconN) (beaconInit beaconSeedBytes)
  have h2 : (2 : Nat) ^ beaconN = 1023 + 1 := by norm_num [beaconN]
  rw [h, h2, Function.iterate_succ_apply']
  exact sha256_length _

/-! ## Small-step view of the beacon loop

A transition relation mirroring one loop iteration, used to state that the
derivation is deterministic: a complete `2^n`-step run from a given start
state reaches exactly one final state, namely the one `beaconLoop` computes. -/

/-- One observable transition of the beacon loop at exponent `n`. -/
inductive BeaconStep (n : Nat) : BeaconSt → BeaconSt → Prop
  | hash (s : BeaconSt) : s.i < 2 ^ n → BeaconStep n s (beaconStepF n s)

/-- Exactly `k` chained transitions of the beacon loop. -/
inductive BeaconSteps (n : Nat) : Nat → BeaconSt → BeaconSt → Prop
  | refl (s : BeaconSt) : BeaconSteps n 0 s s
  | tail {k : Nat} {s t u : BeaconSt} :
      BeaconSteps n k s t → BeaconStep n t u → BeaconSteps n (k + 1) s u

/-- A complete beacon run: all `2^n` iterations. -/
def BeaconRun (n : Nat) (s t : BeaconSt) : Prop := BeaconSteps n (2 ^ n) s t

theorem beaconStep_det {n : Nat} {s t₁ t₂ : BeaconSt}
    (h₁ : BeaconStep n s t₁) (h₂ : BeaconStep n s t₂) : t₁ = t₂ := by
  cases h₁; cases h₂; rfl

theorem beaconSteps_det {n k : Nat} :
    ∀ {s t₁ t₂ : BeaconSt}, BeaconSteps n k s t₁ → BeaconSteps n k s t₂ →
      t₁ = t₂ := by
  induction k with
  | zero =>
      intro s t₁ t₂ h₁ h₂
      cases h₁; cases h₂; rfl
  | succ k ih =>
      intro s t₁ t₂ h₁ h₂
      cases h₁ with
      | tail hs hstep =>
          cases h₂ with
          | tail hs' hstep' =>
              cases ih hs hs'
              exact beaconStep_det hstep hstep'

theorem beaconSteps_iterate (n : Nat) (s : BeaconSt) :
    ∀ k, s.i + k ≤ 2 ^ n → BeaconSteps n k s ((beaconStepF n)^[k] s) := by
  intro k
  induction k with
  | zero => intro _; exact BeaconSteps.refl s
  | succ k ih =>
      intro hk
      have h1 : s.i + k ≤ 2 ^ n := by omega
      have hlt : ((beaconStepF n)^[k] s).i < 2 ^ n := by
        rw [beaconStepF_iterate_i n k s]; omega
      rw [Function.iterate_succ_apply']
      exact BeaconSteps.tail (ih h1) (BeaconStep.hash _ hlt)

theorem beaconRun_beaconLoop (n : Nat) (seed : List Nat) :
    BeaconRun n (beaconInit seed) (beaconLoop n seed) :=
  beaconSteps_iterate n (beaconInit seed) (2 ^ n) (by simp [beaconInit])

/-! ## The `main` entry point

Embedding of the rest of `main`.  The pieces of the repository that live
outside this tree are passed in as explicit pure functions. -/

/-- Compression policy selector (`powersoftau::parameters::UseCompression`). -/
inductive UseCompression
  | Yes
  | No
deriving DecidableEq

/-- Subgroup/correctness-check policy selector
(`powersoftau::parameters::CheckForCorrectness`). -/
inductive CheckForCorrectness
  | Yes
  | No
deriving DecidableEq

/-- The beacon binary reads the challenge uncompressed. -/
def INPUT_IS_COMPRESSED : UseCompression := UseCompression.No

/-- The beacon binary writes the response compressed. -/
def COMPRESS_THE_OUTPUT : UseCompression := UseCompression.Yes

/-- The beacon binary skips input correctness checking. -/
def CHECK_INPUT_CORRECTNESS : CheckForCorrectness := CheckForCorrectness.No

/-- Modelled from the spec: the ceremony-size constants of
`Bn256CeremonyParameters` (trait `PowersOfTauParameters`) are defined outside
this tree; the spec's design notes call for an explicit immutable
configuration object carrying the power bound and derived byte sizes, which is
what this structure is. -/
structure CeremonyParams where
  REQUIRED_POWER : Nat
  TAU_POWERS_G1_LENGTH : Nat
  ACCUMULATOR_BYTE_SIZE : Nat
  CONTRIBUTION_BYTE_SIZE : Nat
  PUBLIC_KEY_SIZE : Nat

/-- The expected challenge-file length, by compression mode (lines 104–107). -/
def expectedChallengeLength (P : CeremonyParams) : UseCompression → Nat
  | UseCompression.Yes => P.CONTRIBUTION_BYTE_SIZE
  | UseCompression.No => P.ACCUMULATOR_BYTE_SIZE

/-- The size the response file is set to, by compression mode
(lines 132–138). -/
def requiredOutputLength (P : CeremonyParams) : UseCompression → Nat
  | UseCompression.Yes => P.CONTRIBUTION_BYTE_SIZE
  | UseCompression.No => P.ACCUMULATOR_BYTE_SIZE + P.PUBLIC_KEY_SIZE

/-- Modelled from the spec: the bodies of
`BatchedAccumulator::calculate_hash` (the 64-byte BLAKE2b transcript digest),
`keypair` (sampling from the seeded generator, bound to a transcript hash),
`BatchedAccumulator::transform` (rewriting the output mapping) and
`PublicKey::write` (appending the key to the output mapping) live outside this
tree.  Per spec sections 3–4 they are deterministic pure operations; the
fallible two return the rewritten output buffer or fail.  Public and private
keys are kept as abstract byte lists. -/
structure CoreOps where
  calculateHash : List Nat → List Nat
  keypair : List Nat → List Nat → List Nat × List Nat
  transform : List Nat → List Nat → UseCompression → UseCompression →
    CheckForCorrectness → List Nat → Option (List Nat)
  writePubkey : List Nat → List Nat → UseCompression → Option (List Nat)

/-- A file system: path names to byte contents. -/
abbrev Fs := String → Option (List Nat)

/-- Ways `main` terminates with a nonzero status: `exit(exitcode::USAGE)` on a
wrong argument count, and the `expect`/`panic!` aborts (exit code 101). -/
inductive ExitKind
  | usage
  | missingChallenge
  | wrongChallengeSize
  | responseExists
  | hashWriteFailed
  | transformFailed
  | pubkeyWriteFailed
deriving DecidableEq

/-- Observable operations of one `main` run, for stating ordering claims.
`dropPrivateKey` is the implicit drop of `privkey` when `main`'s scope ends —
the only point at which the secret scalars are destroyed. -/
inductive Event
  | deriveRng
  | openChallenge
  | checkChallengeSize
  | mapChallenge
  | createResponse
  | setResponseLength
  | mapResponse
  | hashChallenge
  | writeChallengeHash
  | flushResponse
  | sampleKeypair
  | transformAccumulator
  | writePublicKey
  | makeOutputReadOnly
  | hashResponse
  | dropPrivateKey
deriving DecidableEq

/-- The operations of a completed run, in source order (lines 42–225). -/
def successTrace : List Event :=
  [Event.deriveRng, Event.openChallenge, Event.checkChallengeSize,
   Event.mapChallenge, Event.createResponse, Event.setResponseLength,
   Event.mapResponse, Event.hashChallenge, Event.writeChallengeHash,
   Event.flushResponse, Event.sampleKeypair, Event.transformAccumulator,
   Event.writePublicKey, Event.makeOutputReadOnly, Event.hashResponse,
   Event.dropPrivateKey]

/-- Overwrite `data` into `buf` starting at `off`, keeping the rest
(`write_all` into a mapped buffer). -/
def writeAt (buf : List Nat) (off : Nat) (data : List Nat) : List Nat :=
  buf.take off ++ data ++ buf.drop (off + data.length)

/-- Everything a completed run produced. -/
structure RunResult where
  rngSeed : List Nat
  challengeHash : List Nat
  mapAfterHashWrite : List Nat
  pubkey : List Nat
  privkey : List Nat
  responseBytes : List Nat
  contributionHash : List Nat
  fsAfter : Fs
  trace : List Event

/-- The embedded `main` (lines 23–225 of `beacon_constrained.rs`): argument
handling, beacon RNG derivation, challenge loading and size check, response
creation, challenge hashing, hash write and flush, keypair sampling, the
transform, the public-key write, and the response hash.  `ops` supplies the
external library operations, `P` the ceremony size constants, `args` the full
argument vector including the program name, `fs` the file system. -/
def mainModel (ops : CoreOps) (P : CeremonyParams) (args : List String)
    (fs : Fs) : Except ExitKind RunResult :=
  match args with
  | [_, challenge_filename, response_filename] =>
      -- lines 42–90: the beacon RNG is derived first, before any file access;
      -- its seed words are the constant `beaconRngSeedWords` below
      -- lines 95–98: open the challenge file
      match fs challenge_filename with
      | none => Except.error ExitKind.missingChallenge
      | some challengeBytes =>
          -- lines 100–116: the length must equal the precomputed expectation
          if challengeBytes.length ≠
              expectedChallengeLength P INPUT_IS_COMPRESSED then
            Except.error ExitKind.wrongChallengeSize
          else
            -- lines 125–130: `create_new` fails when the response exists
            match fs response_filename with
            | some _ => Except.error ExitKind.responseExists
            | none =>
                -- lines 132–148: size and map the zero-filled response file;
                -- lines 152–174: hash the challenge, write the hash at
                -- offset 0 of the mapping (failing when it cannot fit),
                -- then flush
                if requiredOutputLength P COMPRESS_THE_OUTPUT <
                    (ops.calculateHash challengeBytes).length then
                  Except.error ExitKind.hashWriteFailed
                else
                  -- line 178: keypair from the beacon RNG, bound to the hash;
                  -- lines 184–192: the transform, with the fixed policy
                  match ops.transform challengeBytes
                      (writeAt
                        (List.replicate
                          (requiredOutputLength P COMPRESS_THE_OUTPUT) 0) 0
                        (ops.calculateHash challengeBytes))
                      INPUT_IS_COMPRESSED COMPRESS_THE_OUTPUT
                      CHECK_INPUT_CORRECTNESS
                      (ops.keypair beaconRngSeedWords
                        (ops.calculateHash challengeBytes)).2 with
                  | none => Except.error ExitKind.transformFailed
                  | some afterTransform =>
                      -- lines 196–198: append the public key
                      match ops.writePubkey
                          (ops.keypair beaconRngSeedWords
                            (ops.calculateHash challengeBytes)).1
                          afterTransform COMPRESS_THE_OUTPUT with
                      | none => Except.error ExitKind.pubkeyWriteFailed
                      | some responseBytes =>
                          -- lines 201–222: hash the finished response
                          Except.ok
                            { rngSeed := beaconRngSeedWords
                              challengeHash := ops.calculateHash challengeBytes
                              mapAfterHashWrite :=
                                writeAt
                                  (List.replicate
                                    (requiredOutputLength P
                                      COMPRESS_THE_OUTPUT) 0) 0
                                  (ops.calculateHash challengeBytes)
                              pubkey :=
                                (ops.keypair beaconRngSeedWords
                                  (ops.calculateHash challengeBytes)).1
                              privkey :=
                                (ops.keypair beaconRngSeedWords
                                  (ops.calculateHash challengeBytes)).2
                              responseBytes := responseBytes
                              contributionHash := ops.calculateHash responseBytes
                              fsAfter := fun name =>
                                if name = response_filename then
                                  some responseBytes
                                else fs name
                              trace := successTrace }
  | _ => Except.error ExitKind.usage

/-- Did the run complete (exit status zero)? -/
def runOk : Except ExitKind RunResult → Bool
  | Except.ok _ => true
  | Except.error _ => false

/-- The trace of a run; empty for an aborted run. -/
def runTrace : Except ExitKind RunResult → List Event
  | Except.ok r => r.trace
  | Except.error _ => []

/-- The RNG seed words of a completed run; empty for an aborted run. -/
def runRngSeed : Except ExitKind RunResult → List Nat
  | Except.ok r => r.rngSeed
  | Except.error _ => []

/-- The challenge transcript hash of a completed run. -/
def runChallengeHash : Except ExitKind RunResult → List Nat
  | Except.ok r => r.challengeHash
  | Except.error _ => []

/-- The response mapping as it stood after the hash write and flush. -/
def runMapAfterHashWrite : Except ExitKind RunResult → List Nat
  | Except.ok r => r.mapAfterHashWrite
  | Except.error _ => []

/-- The public key of a completed run. -/
def runPubkey : Except ExitKind RunResult → List Nat
  | Except.ok r => r.pubkey
  | Except.error _ => []

/-- The private key of a completed run. -/
def runPrivkey : Except ExitKind RunResult → List Nat
  | Except.ok r => r.privkey
  | Except.error _ => []

/-- The final response-file bytes of a completed run. -/
def runResponseBytes : Except ExitKind RunResult → List Nat
  | Except.ok r => r.responseBytes
  | Except.error _ => []

/-- The file system after a run; an aborted run leaves `fs` unchanged. -/
def runFsAfter (fs : Fs) : Except ExitKind RunResult → Fs
  | Except.ok r => r.fsAfter
  | Except.error _ => fs

/-- Inversion of a completed run: the shape the arguments and file system must
have had, the outcomes of the external calls, and the produced result. -/
theorem mainModel_ok_inv {ops : CoreOps} {P : CeremonyParams}
    {args : List String} {fs : Fs} {r : RunResult}
    (h : mainModel ops P args fs = Except.ok r) :
    ∃ p c resp challengeBytes afterTransform responseBytes,
      args = [p, c, resp] ∧
      fs c = some challengeBytes ∧
      challengeBytes.length = expectedChallengeLength P INPUT_IS_COMPRESSED ∧
      fs resp = none ∧
      (ops.calculateHash challengeBytes).length ≤
        requiredOutputLength P COMPRESS_THE_OUTPUT ∧
      ops.transform challengeBytes
          (writeAt
            (List.replicate (requiredOutputLength P COMPRESS_THE_OUTPUT) 0) 0
            (ops.calculateHash challengeBytes))
          INPUT_IS_COMPRESSED COMPRESS_THE_OUTPUT CHECK_INPUT_CORRECTNESS
          (ops.keypair beaconRngSeedWords (ops.calculateHash challengeBytes)).2
        = some afterTransform ∧
      ops.writePubkey
          (ops.keypair beaconRngSeedWords (ops.calculateHash challengeBytes)).1
          afterTransform COMPRESS_THE_OUTPUT = some responseBytes ∧
      r = { rngSeed := beaconRngSeedWords
            challengeHash := ops.calculateHash challengeBytes
            mapAfterHashWrite :=
              writeAt
                (List.replicate (requiredOutputLength P COMPRESS_THE_OUTPUT) 0)
                0 (ops.calculateHash challengeBytes)
            pubkey :=
              (ops.keypair beaconRngSeedWords
                (ops.calculateHash challengeBytes)).1
            privkey :=
              (ops.keypair beaconRngSeedWords
                (ops.calculateHash challengeBytes)).2
            responseBytes := responseBytes
            contributionHash := ops.calculateHash responseBytes
            fsAfter := fun name =>
              if name = resp then some responseBytes else fs name
            trace := successTrace } := by
  obtain _ | ⟨a0, _ | ⟨a1, _ | ⟨a2, _ | ⟨a3, rest⟩⟩⟩⟩ := args
  · simp [mainModel] at h
  · simp [mainModel] at h
  · simp [mainModel] at h
  · simp only [mainModel] at h
    split at h
    · exact Except.noConfusion h
    · rename_i challengeBytes hc
      split at h
      · exact Except.noConfusion h
      · rename_i hlen
        split at h
        · exact Except.noConfusion h
        · rename_i hresp
          split at h
          · exact Except.noConfusion h
          · rename_i hfit
            split at h
            · exact Except.noConfusion h
            · rename_i afterTransform ht
              split at h
              · exact Except.noConfusion h
              · rename_i responseBytes hw
                refine ⟨a0, a1, a2, challengeBytes, afterTransform,
                  responseBytes, rfl, hc, ?_, hresp, ?_, ht, hw, ?_⟩
                · exact Decidable.not_not.mp hlen
                · exact Nat.not_lt.mp hfit
                · exact (Except.ok.inj h).symm
  · simp [mainModel] at h

theorem runOk_exists {ops : CoreOps} {P : CeremonyParams} {args : List String}
    {fs : Fs} (h : runOk (mainModel ops P args fs) = true) :
    ∃ r, mainModel ops P args fs = Except.ok r := by
  cases hm : mainModel ops P args fs with
  | ok r => exact ⟨r, rfl⟩
  | error e => rw [hm] at h; simp [runOk] at h

theorem runTrace_of_ok {ops : CoreOps} {P : CeremonyParams}
    {args : List String} {fs : Fs}
    (h : runOk (mainModel ops P args fs) = true) :
    runTrace (mainModel ops P args fs) = successTrace := by
  obtain ⟨r, hm⟩ := runOk_exists h
  obtain ⟨_, _, _, _, _, _, _, _, _, _, _, _, _, hr⟩ := mainModel_ok_inv hm
  rw [hm, hr]
  rfl

theorem mainModel_wrongSize {ops : CoreOps} {P : CeremonyParams}
    {p c resp : String} {fs : Fs} {challengeBytes : List Nat}
    (hc : fs c = some challengeBytes)
    (hlen : challengeBytes.length ≠
      expectedChallengeLength P INPUT_IS_COMPRESSED) :
    mainModel ops P [p, c, resp] fs =
      Except.error ExitKind.wrongChallengeSize := by
  simp [mainModel, hc, hlen]

/-! ## Concrete fixtures

A small instantiation of the external operations, the size constants, and a
file system, on which the hypotheses of the theorems below are discharged
concretely. -/

/-- Fixture operations: a constant 64-byte transcript hash, a constant
keypair ignoring the generator, a transform and key write that keep the
output buffer. -/
def wOps : CoreOps :=
  { calculateHash := fun _ => List.replicate 64 7
    keypair := fun _ _ => ([5], [9])
    transform := fun _ out _ _ _ _ => some out
    writePubkey := fun pk out _ => some (out ++ pk) }

/-- Fixture size constants. -/
def wParams : CeremonyParams :=
  { REQUIRED_POWER := 10
    TAU_POWERS_G1_LENGTH := 2047
    ACCUMULATOR_BYTE_SIZE := 96
    CONTRIBUTION_BYTE_SIZE := 80
    PUBLIC_KEY_SIZE := 20 }

/-- Fixture argument vector: program name plus the two positional paths. -/
def wArgs : List String := ["beacon_constrained", "challenge", "response"]

/-- Fixture file system: a well-sized challenge file and nothing else. -/
def wFs : Fs := fun name =>
  if name = "challenge" then some (List.replicate 96 1) else none

/-- Fixture file system for a second run from equal challenge bytes under a
different path. -/
def wFs2 : Fs := fun name =>
  if name = "challenge2" then some (List.replicate 96 1) else none

/-- Fixture file system with an undersized challenge file. -/
def wFsShort : Fs := fun name =>
  if name = "challenge" then some (List.replicate 10 1) else none

/-- Fixture file system with an undersized challenge of other contents. -/
def wFsShort2 : Fs := fun name =>
  if name = "challenge" then some (List.replicate 10 2) else none

/-- Fixture file system where the response path already exists. -/
def wFsBoth : Fs := fun name =>
  if name = "challenge" then some (List.replicate 96 1)
  else if name = "response" then some [0] else none

/-! ## The claims -/

/-- C1: the beacon derivation performs exactly `2^N` iterations of
`seed := SHA-256(seed)` (with `N = 10` deployed: 1024 iterations from the
fixed 32-byte seed), prints a checkpoint exactly at the iteration indices
divisible by `2^(N-10)` — with `N = 10` that is every index, the checkpoint
at index `i` being the `i`-fold hash, so the first checkpoint is the unhashed
seed at `i = 0` — and then prints the `2^N`-fold hash as the final digest. -/
theorem beacon_iteration_checkpoints :
    (∀ seed n,
      (beaconLoop n seed).cur = sha256^[2 ^ n] seed ∧
      (beaconLoop n seed).checkpoints =
        ((List.range (2 ^ n)).filter (fun i => i % 2 ^ (n - 10) == 0)).map
          (fun i => (i, sha256^[i] seed))) ∧
    beaconFinalDigest = sha256^[1024] beaconSeedBytes ∧
    (beaconLoop beaconN beaconSeedBytes).checkpoints =
      (List.range 1024).map (fun i => (i, sha256^[i] beaconSeedBytes)) ∧
    (beaconLoop beaconN beaconSeedBytes).checkpoints.head? =
      some (0, beaconSeedBytes) := by
  have hgen : ∀ seed n,
      (beaconLoop n seed).cur = sha256^[2 ^ n] seed ∧
      (beaconLoop n seed).checkpoints =
        ((List.range (2 ^ n)).filter (fun i => i % 2 ^ (n - 10) == 0)).map
          (fun i => (i, sha256^[i] seed)) := by
    intro seed n
    constructor
    · simpa [beaconInit] using
        beaconStepF_iterate_cur n (2 ^ n) (beaconInit seed)
    · exact beaconStepF_iterate_checkpoints n seed (2 ^ n)
  have hpow : (2 : Nat) ^ beaconN = 1024 := by norm_num [beaconN]
  have h1024 : (beaconLoop beaconN beaconSeedBytes).checkpoints =
      (List.range 1024).map (fun i => (i, sha256^[i] beaconSeedBytes)) := by
    rw [(hgen beaconSeedBytes beaconN).2]
    have hfil : (List.range (2 ^ beaconN)).filter
        (fun i => i % 2 ^ (beaconN - 10) == 0) = List.range (2 ^ beaconN) := by
      apply List.filter_eq_self.mpr
      intro a _
      simp [beaconN, Nat.mod_one]
    rw [hfil, hpow]
  refine ⟨hgen, ?_, h1024, ?_⟩
  · show (beaconLoop beaconN beaconSeedBytes).cur = sha256^[1024] beaconSeedBytes
    rw [(hgen beaconSeedBytes beaconN).1, hpow]
  · rw [h1024]
    have h5 : (1024 : Nat) = 1023 + 1 := by norm_num
    rw [h5, List.range_succ_eq_map, List.map_cons, List.head?_cons]
    simp

/-- C6: the beacon derivation is pure and deterministic: any two complete
`2^n`-step runs of the loop relation from one start state reach the same
final state — the same final digest, hence the same RNG seed words, and the
same recorded checkpoint sequence — and that unique final state is exactly
what the functional loop `beaconLoop` computes from the seed and `n` alone,
so any faithful independent implementation reproduces it bit for bit. -/
theorem beacon_derive_deterministic :
    (∀ n (s t₁ t₂ : BeaconSt),
      BeaconRun n s t₁ → BeaconRun n s t₂ →
        t₁ = t₂ ∧ t₁.cur = t₂.cur ∧ t₁.checkpoints = t₂.checkpoints) ∧
    (∀ n seed, BeaconRun n (beaconInit seed) (beaconLoop n seed)) := by
  refine ⟨?_, beaconRun_beaconLoop⟩
  intro n s t₁ t₂ h₁ h₂
  have h := beaconSteps_det h₁ h₂
  exact ⟨h, by rw [h], by rw [h]⟩

/-- Witness for C6 at `n = 0` and the empty seed: a concrete one-step
complete run, compared against itself. -/
theorem beacon_derive_deterministic_witness :
    BeaconRun 0 (beaconInit []) (beaconLoop 0 []) ∧
      beaconLoop 0 [] = beaconLoop 0 [] := by
  have hrun : BeaconSteps 0 1 (beaconInit [])
      (beaconStepF 0 (beaconInit [])) :=
    BeaconSteps.tail (BeaconSteps.refl _) (BeaconStep.hash _ (by decide))
  have hrun' : BeaconRun 0 (beaconInit []) (beaconLoop 0 []) := hrun
  exact ⟨hrun',
    (beacon_derive_deterministic.1 0 (beaconInit []) _ _ hrun' hrun').1⟩

/-- C2: the final 32-byte digest is read as eight 32-bit words in big-endian
byte order, and exactly those eight words, in order, become the seed of the
deterministic ChaCha generator — the generator from which the keypair is
later sampled in every completed run. -/
theorem beacon_rng_seed_words :
    beaconFinalDigest.length = 32 ∧
    readSeedWords 8 beaconFinalDigest =
      some ((List.range 8).map (beWordAt beaconFinalDigest)) ∧
    beaconRngSeedWords = (List.range 8).map (beWordAt beaconFinalDigest) ∧
    (∀ ops P args fs,
      runOk (mainModel ops P args fs) = true →
      runRngSeed (mainModel ops P args fs) = beaconRngSeedWords ∧
      runPrivkey (mainModel ops P args fs) =
        (ops.keypair beaconRngSeedWords
          (runChallengeHash (mainModel ops P args fs))).2 ∧
      runPubkey (mainModel ops P args fs) =
        (ops.keypair beaconRngSeedWords
          (runChallengeHash (mainModel ops P args fs))).1) := by
  have hlen := beaconFinalDigest_length
  have h32 : 4 * 8 ≤ beaconFinalDigest.length := by rw [hlen]
  have hwords := readSeedWords_spec 8 beaconFinalDigest h32
  refine ⟨hlen, hwords, ?_, ?_⟩
  · show (readSeedWords 8 beaconFinalDigest).getD [] =
        (List.range 8).map (beWordAt beaconFinalDigest)
    rw [hwords]
    rfl
  · intro ops P args fs h
    obtain ⟨r, hm⟩ := runOk_exists h
    obtain ⟨p, c, resp, cb, at1, rb, ha, hc, hl, hr0, hg, ht, hw, hr⟩ :=
      mainModel_ok_inv hm
    have hseed : r.rngSeed = beaconRngSeedWords := by rw [hr]
    have hch : r.challengeHash = ops.calculateHash cb := by rw [hr]
    have hpriv : r.privkey =
        (ops.keypair beaconRngSeedWords (ops.calculateHash cb)).2 := by rw [hr]
    have hpub : r.pubkey =
        (ops.keypair beaconRngSeedWords (ops.calculateHash cb)).1 := by rw [hr]
    rw [hm]
    refine ⟨hseed, ?_, ?_⟩
    · show r.privkey = (ops.keypair beaconRngSeedWords r.challengeHash).2
      rw [hpriv, hch]
    · show r.pubkey = (ops.keypair beaconRngSeedWords r.challengeHash).1
      rw [hpub, hch]

/-- Witness for C2 on the fixture run. -/
theorem beacon_rng_seed_words_witness :
    runOk (mainModel wOps wParams wArgs wFs) = true ∧
    runRngSeed (mainModel wOps wParams wArgs wFs) = beaconRngSeedWords ∧
    runPrivkey (mainModel wOps wParams wArgs wFs) =
      (wOps.keypair beaconRngSeedWords
        (runChallengeHash (mainModel wOps wParams wArgs wFs))).2 ∧
    runPubkey (mainModel wOps wParams wArgs wFs) =
      (wOps.keypair beaconRngSeedWords
        (runChallengeHash (mainModel wOps wParams wArgs wFs))).1 := by
  have hok : runOk (mainModel wOps wParams wArgs wFs) = true := by rfl
  obtain ⟨h1, h2, h3⟩ :=
    beacon_rng_seed_words.2.2.2 wOps wParams wArgs wFs hok
  exact ⟨hok, h1, h2, h3⟩

/-- C3: the beacon deployment fixes its policy as compiled constants —
uncompressed challenge input, compressed response output, no input
correctness checking — these constants select the expected challenge size
(`ACCUMULATOR_BYTE_SIZE`) and the response size (`CONTRIBUTION_BYTE_SIZE`),
a completed run's challenge file therefore has exactly the uncompressed
accumulator size, and the transform is observationally only ever invoked
with exactly this policy triple. -/
theorem beacon_policy_constants :
    INPUT_IS_COMPRESSED = UseCompression.No ∧
    COMPRESS_THE_OUTPUT = UseCompression.Yes ∧
    CHECK_INPUT_CORRECTNESS = CheckForCorrectness.No ∧
    (∀ P, expectedChallengeLength P INPUT_IS_COMPRESSED =
      P.ACCUMULATOR_BYTE_SIZE) ∧
    (∀ P, requiredOutputLength P COMPRESS_THE_OUTPUT =
      P.CONTRIBUTION_BYTE_SIZE) ∧
    (∀ ops P p c resp fs challengeBytes,
      fs c = some challengeBytes →
      runOk (mainModel ops P [p, c, resp] fs) = true →
      challengeBytes.length = P.ACCUMULATOR_BYTE_SIZE) ∧
    (∀ ops ops' P args fs,
      ops'.calculateHash = ops.calculateHash →
      ops'.keypair = ops.keypair →
      ops'.writePubkey = ops.writePubkey →
      (∀ inp out key,
        ops'.transform inp out INPUT_IS_COMPRESSED COMPRESS_THE_OUTPUT
          CHECK_INPUT_CORRECTNESS key =
        ops.transform inp out INPUT_IS_COMPRESSED COMPRESS_THE_OUTPUT
          CHECK_INPUT_CORRECTNESS key) →
      mainModel ops' P args fs = mainModel ops P args fs) := by
  refine ⟨rfl, rfl, rfl, fun P => rfl, fun P => rfl, ?_, ?_⟩
  · intro ops P p c resp fs challengeBytes hfs h
    obtain ⟨r, hm⟩ := runOk_exists h
    obtain ⟨p', c', resp', cb, at1, rb, ha, hc, hl, hr0, hg, ht, hw, hr⟩ :=
      mainModel_ok_inv hm
    obtain ⟨hp, hcc, hrr⟩ : p = p' ∧ c = c' ∧ resp = resp' := by
      simpa using ha
    subst hcc
    rw [hfs] at hc
    cases hc
    exact hl
  · intro ops ops' P args fs h1 h2 h3 h4
    simp only [mainModel, h1, h2, h3, h4]

/-- Witness for C3: the fixture run has an `ACCUMULATOR_BYTE_SIZE`-long
challenge, and the observational conjunct instantiated at equal operations. -/
theorem beacon_policy_constants_witness :
    wFs "challenge" = some (List.replicate 96 1) ∧
    runOk (mainModel wOps wParams wArgs wFs) = true ∧
    (List.replicate 96 1).length = wParams.ACCUMULATOR_BYTE_SIZE ∧
    mainModel wOps wParams wArgs wFs = mainModel wOps wParams wArgs wFs := by
  have hfs : wFs "challenge" = some (List.replicate 96 1) := rfl
  have hok : runOk (mainModel wOps wParams wArgs wFs) = true := by rfl
  refine ⟨hfs, hok, ?_, ?_⟩
  · exact beacon_policy_constants.2.2.2.2.2.1 wOps wParams
      "beacon_constrained" "challenge" "response" wFs
      (List.replicate 96 1) hfs hok
  · exact beacon_policy_constants.2.2.2.2.2.2 wOps wOps wParams wArgs wFs
      rfl rfl rfl (fun _ _ _ => rfl)

/-- C4: the program fails (nonzero exit) when the argument count is not
exactly the two positional paths, when the challenge file is missing, when
the challenge length differs from the precomputed expectation for the chosen
compression mode — a check performed before any parsing: for any two
same-length wrong-size challenge contents, any other file-system state and
any external operations the outcome is the same error — and when the
response path already exists at file-creation time. -/
theorem cli_failure_modes :
    (∀ ops P args fs, args.length ≠ 3 →
      mainModel ops P args fs = Except.error ExitKind.usage) ∧
    (∀ ops P p c resp fs, fs c = none →
      mainModel ops P [p, c, resp] fs =
        Except.error ExitKind.missingChallenge) ∧
    (∀ ops P p c resp fs challengeBytes, fs c = some challengeBytes →
      challengeBytes.length ≠ expectedChallengeLength P INPUT_IS_COMPRESSED →
      mainModel ops P [p, c, resp] fs =
        Except.error ExitKind.wrongChallengeSize) ∧
    (∀ ops ops' P p c resp fs fs' bytes bytes',
      fs c = some bytes → fs' c = some bytes' →
      bytes.length = bytes'.length →
      bytes.length ≠ expectedChallengeLength P INPUT_IS_COMPRESSED →
      mainModel ops P [p, c, resp] fs = mainModel ops' P [p, c, resp] fs') ∧
    (∀ ops P p c resp fs challengeBytes old, fs c = some challengeBytes →
      challengeBytes.length = expectedChallengeLength P INPUT_IS_COMPRESSED →
      fs resp = some old →
      mainModel ops P [p, c, resp] fs =
        Except.error ExitKind.responseExists) := by
  refine ⟨?_, ?_, ?_, ?_, ?_⟩
  · intro ops P args fs h
    obtain _ | ⟨a0, _ | ⟨a1, _ | ⟨a2, _ | ⟨a3, rest⟩⟩⟩⟩ := args
    · rfl
    · rfl
    · rfl
    · simp at h
    · rfl
  · intro ops P p c resp fs h
    simp [mainModel, h]
  · intro ops P p c resp fs challengeBytes hc hlen
    exact mainModel_wrongSize hc hlen
  · intro ops ops' P p c resp fs fs' bytes bytes' hc hc' heq hlen
    rw [mainModel_wrongSize hc hlen, mainModel_wrongSize hc' (by rw [← heq]; exact hlen)]
  · intro ops P p c resp fs challengeBytes old hc hlen hresp
    simp [mainModel, hc, hlen, hresp]

/-- Witness for C4: each failure mode exercised concretely. -/
theorem cli_failure_modes_witness :
    ([] : List String).length ≠ 3 ∧
    mainModel wOps wParams [] wFs = Except.error ExitKind.usage ∧
    wFs "nope" = none ∧
    mainModel wOps wParams ["p", "nope", "response"] wFs =
      Except.error ExitKind.missingChallenge ∧
    wFsShort "challenge" = some (List.replicate 10 1) ∧
    (List.replicate 10 1).length ≠
      expectedChallengeLength wParams INPUT_IS_COMPRESSED ∧
    mainModel wOps wParams ["p", "challenge", "response"] wFsShort =
      Except.error ExitKind.wrongChallengeSize ∧
    mainModel wOps wParams ["p", "challenge", "response"] wFsShort =
      mainModel wOps wParams ["p", "challenge", "response"] wFsShort2 ∧
    wFsBoth "response" = some [0] ∧
    mainModel wOps wParams ["p", "challenge", "response"] wFsBoth =
      Except.error ExitKind.responseExists := by
  have h3 : ([] : List String).length ≠ 3 := by decide
  have hshort : wFsShort "challenge" = some (List.replicate 10 1) := rfl
  have hshort2 : wFsShort2 "challenge" = some (List.replicate 10 2) := rfl
  have hwrong : (List.replicate 10 1).length ≠
      expectedChallengeLength wParams INPUT_IS_COMPRESSED := by decide
  refine ⟨h3, cli_failure_modes.1 wOps wParams [] wFs h3,
    rfl, cli_failure_modes.2.1 wOps wParams "p" "nope" "response" wFs rfl,
    hshort, hwrong,
    cli_failure_modes.2.2.1 wOps wParams "p" "challenge" "response" wFsShort
      (List.replicate 10 1) hshort hwrong,
    cli_failure_modes.2.2.2.1 wOps wOps wParams "p" "challenge" "response"
      wFsShort wFsShort2 (List.replicate 10 1) (List.replicate 10 2)
      hshort hshort2 (by decide) hwrong,
    rfl,
    cli_failure_modes.2.2.2.2 wOps wParams "p" "challenge" "response" wFsBoth
      (List.replicate 96 1) [0] rfl (by decide) rfl⟩

/-- C5 counterexample: the claimed order "load the challenge, hash it, then
derive the RNG" is false — on a concrete completed run the RNG derivation
strictly precedes the challenge hashing (and the load). -/
theorem contribution_flow_counterexample :
    runOk (mainModel wOps wParams wArgs wFs) = true ∧
    ¬ ((runTrace (mainModel wOps wParams wArgs wFs)).indexOf
          Event.hashChallenge <
        (runTrace (mainModel wOps wParams wArgs wFs)).indexOf
          Event.deriveRng) := by
  exact ⟨by rfl, by decide⟩

/-- C5 amended: the contribution proceeds in this order — derive the RNG
from the public beacon seed FIRST, then load the challenge (mapped), hash
it, write that hash into the mapped response and flush, then sample the
keypair bound to the hash, run the transform into the mapped response,
append the public key, and finally hash the response for the next
participant. -/
theorem contribution_flow_order (ops : CoreOps) (P : CeremonyParams)
    (args : List String) (fs : Fs)
    (h : runOk (mainModel ops P args fs) = true) :
    runTrace (mainModel ops P args fs) = successTrace ∧
    successTrace.indexOf Event.deriveRng <
      successTrace.indexOf Event.openChallenge ∧
    successTrace.indexOf Event.openChallenge <
      successTrace.indexOf Event.hashChallenge ∧
    successTrace.indexOf Event.hashChallenge <
      successTrace.indexOf Event.writeChallengeHash ∧
    successTrace.indexOf Event.writeChallengeHash <
      successTrace.indexOf Event.flushResponse ∧
    successTrace.indexOf Event.flushResponse <
      successTrace.indexOf Event.sampleKeypair ∧
    successTrace.indexOf Event.sampleKeypair <
      successTrace.indexOf Event.transformAccumulator ∧
    successTrace.indexOf Event.transformAccumulator <
      successTrace.indexOf Event.writePublicKey ∧
    successTrace.indexOf Event.writePublicKey <
      successTrace.indexOf Event.hashResponse := by
  refine ⟨runTrace_of_ok h, ?_⟩
  decide

/-- Witness for C5 on the fixture run. -/
theorem contribution_flow_order_witness :
    runOk (mainModel wOps wParams wArgs wFs) = true ∧
    runTrace (mainModel wOps wParams wArgs wFs) = successTrace := by
  have hok : runOk (mainModel wOps wParams wArgs wFs) = true := by rfl
  exact ⟨hok, (contribution_flow_order wOps wParams wArgs wFs hok).1⟩

/-- C7: a completed run never writes, truncates, or deletes the challenge
file: every path other than the freshly created response path is unchanged —
the challenge path is necessarily distinct from the response path — and the
response path holds exactly the produced response bytes. -/
theorem challenge_file_preserved (ops : CoreOps) (P : CeremonyParams)
    (p c resp : String) (fs : Fs)
    (h : runOk (mainModel ops P [p, c, resp] fs) = true) :
    (∀ name, name ≠ resp →
      runFsAfter fs (mainModel ops P [p, c, resp] fs) name = fs name) ∧
    c ≠ resp ∧
    runFsAfter fs (mainModel ops P [p, c, resp] fs) c = fs c ∧
    runFsAfter fs (mainModel ops P [p, c, resp] fs) resp =
      some (runResponseBytes (mainModel ops P [p, c, resp] fs)) := by
  obtain ⟨r, hm⟩ := runOk_exists h
  obtain ⟨p', c', resp', cb, at1, rb, ha, hc, hl, hr0, hg, ht, hw, hr⟩ :=
    mainModel_ok_inv hm
  obtain ⟨hp, hcc, hrr⟩ : p = p' ∧ c = c' ∧ resp = resp' := by simpa using ha
  subst hcc
  subst hrr
  have hfa : ∀ name, r.fsAfter name =
      if name = resp then some rb else fs name := by
    intro name
    rw [hr]
  have hresp : r.responseBytes = rb := by rw [hr]
  have hcne : c ≠ resp := by
    intro heq
    rw [heq] at hc
    rw [hc] at hr0
    exact Option.noConfusion hr0
  rw [hm]
  refine ⟨?_, hcne, ?_, ?_⟩
  · intro name hne
    show r.fsAfter name = fs name
    rw [hfa name, if_neg hne]
  · show r.fsAfter c = fs c
    rw [hfa c, if_neg hcne]
  · show r.fsAfter resp = some r.responseBytes
    rw [hfa resp, if_pos rfl, hresp]

/-- Witness for C7 on the fixture run. -/
theorem challenge_file_preserved_witness :
    runOk (mainModel wOps wParams
      ["beacon_constrained", "challenge", "response"] wFs) = true ∧
    ("challenge" : String) ≠ "response" ∧
    runFsAfter wFs (mainModel wOps wParams
      ["beacon_constrained", "challenge", "response"] wFs) "challenge" =
      wFs "challenge" ∧
    runFsAfter wFs (mainModel wOps wParams
      ["beacon_constrained", "challenge", "response"] wFs) "other" =
      wFs "other" := by
  have hok : runOk (mainModel wOps wParams
      ["beacon_constrained", "challenge", "response"] wFs) = true := by rfl
  obtain ⟨hall, hne, hch, _⟩ := challenge_file_preserved wOps wParams
    "beacon_constrained" "challenge" "response" wFs hok
  exact ⟨hok, hne, hch, hall "other" (by decide)⟩

/-- C8 counterexample: the private key is not zeroed or overwritten
immediately after the transform returns — on a concrete completed run the
public-key write (further I/O) happens strictly before the only destruction
point of the private key. -/
theorem privkey_destruction_counterexample :
    runOk (mainModel wOps wParams wArgs wFs) = true ∧
    ¬ ((runTrace (mainModel wOps wParams wArgs wFs)).indexOf
          Event.dropPrivateKey <
        (runTrace (mainModel wOps wParams wArgs wFs)).indexOf
          Event.writePublicKey) := by
  exact ⟨by rfl, by decide⟩

/-- C8 amended: the private key is never explicitly zeroed; it is destroyed
only by the drop at the very end of `main` — the last event of every
completed run, strictly after the transform, the public-key write, and the
response hashing. -/
theorem privkey_dropped_after_io (ops : CoreOps) (P : CeremonyParams)
    (args : List String) (fs : Fs)
    (h : runOk (mainModel ops P args fs) = true) :
    runTrace (mainModel ops P args fs) = successTrace ∧
    successTrace.indexOf Event.transformAccumulator <
      successTrace.indexOf Event.writePublicKey ∧
    successTrace.indexOf Event.writePublicKey <
      successTrace.indexOf Event.dropPrivateKey ∧
    successTrace.indexOf Event.hashResponse <
      successTrace.indexOf Event.dropPrivateKey ∧
    successTrace.getLast? = some Event.dropPrivateKey := by
  refine ⟨runTrace_of_ok h, ?_⟩
  decide

/-- Witness for C8 on the fixture run. -/
theorem privkey_dropped_after_io_witness :
    runOk (mainModel wOps wParams wArgs wFs) = true ∧
    runTrace (mainModel wOps wParams wArgs wFs) = successTrace := by
  have hok : runOk (mainModel wOps wParams wArgs wFs) = true := by rfl
  exact ⟨hok, (privkey_dropped_after_io wOps wParams wArgs wFs hok).1⟩

/-- C9: on every completed run — with the transcript hasher producing
64-byte digests, as the BLAKE2b-512 hasher does — the hash of the entire
challenge file is written at offset 0 of the response mapping and flushed
strictly before the keypair is sampled and before the transform runs: at
that point the mapping's first 64 bytes are exactly the challenge hash, and
the mapping retains the response file's full size. -/
theorem challenge_hash_prefix_written (ops : CoreOps) (P : CeremonyParams)
    (args : List String) (fs : Fs)
    (h64 : ∀ b, (ops.calculateHash b).length = 64)
    (h : runOk (mainModel ops P args fs) = true) :
    (∃ p c resp challengeBytes,
      args = [p, c, resp] ∧ fs c = some challengeBytes ∧
      runChallengeHash (mainModel ops P args fs) =
        ops.calculateHash challengeBytes) ∧
    (runMapAfterHashWrite (mainModel ops P args fs)).take 64 =
      runChallengeHash (mainModel ops P args fs) ∧
    (runMapAfterHashWrite (mainModel ops P args fs)).length =
      requiredOutputLength P COMPRESS_THE_OUTPUT ∧
    64 ≤ requiredOutputLength P COMPRESS_THE_OUTPUT ∧
    runTrace (mainModel ops P args fs) = successTrace ∧
    successTrace.indexOf Event.writeChallengeHash <
      successTrace.indexOf Event.sampleKeypair ∧
    successTrace.indexOf Event.flushResponse <
      successTrace.indexOf Event.sampleKeypair ∧
    successTrace.indexOf Event.sampleKeypair <
      successTrace.indexOf Event.transformAccumulator := by
  obtain ⟨r, hm⟩ := runOk_exists h
  obtain ⟨p, c, resp, cb, at1, rb, ha, hc, hl, hr0, hg, ht, hw, hr⟩ :=
    mainModel_ok_inv hm
  have hch : r.challengeHash = ops.calculateHash cb := by rw [hr]
  have hmap : r.mapAfterHashWrite =
      writeAt (List.replicate (requiredOutputLength P COMPRESS_THE_OUTPUT) 0)
        0 (ops.calculateHash cb) := by rw [hr]
  have h64le : 64 ≤ requiredOutputLength P COMPRESS_THE_OUTPUT := by
    have hgl := hg
    rwa [h64 cb] at hgl
  have htake :
      (writeAt (List.replicate (requiredOutputLength P COMPRESS_THE_OUTPUT) 0)
        0 (ops.calculateHash cb)).take 64 = ops.calculateHash cb := by
    rw [writeAt]
    simp only [List.take_zero, List.nil_append]
    rw [← h64 cb]
    exact List.take_left _ _
  have hlen2 :
      (writeAt (List.replicate (requiredOutputLength P COMPRESS_THE_OUTPUT) 0)
        0 (ops.calculateHash cb)).length =
        requiredOutputLength P COMPRESS_THE_OUTPUT := by
    simp [writeAt, h64 cb]
    omega
  have htrc : r.trace = successTrace := by rw [hr]
  rw [hm]
  refine ⟨⟨p, c, resp, cb, ha, hc, hch⟩, ?_, ?_, h64le,
    htrc, by decide, by decide, by decide⟩
  · show r.mapAfterHashWrite.take 64 = r.challengeHash
    rw [hmap, hch, htake]
  · show r.mapAfterHashWrite.length = requiredOutputLength P COMPRESS_THE_OUTPUT
    rw [hmap, hlen2]

/-- Witness for C9 on the fixture run. -/
theorem challenge_hash_prefix_written_witness :
    (∀ b, (wOps.calculateHash b).length = 64) ∧
    runOk (mainModel wOps wParams wArgs wFs) = true ∧
    (runMapAfterHashWrite (mainModel wOps wParams wArgs wFs)).take 64 =
      runChallengeHash (mainModel wOps wParams wArgs wFs) ∧
    64 ≤ requiredOutputLength wParams COMPRESS_THE_OUTPUT := by
  have h64 : ∀ b, (wOps.calculateHash b).length = 64 := by
    intro b
    simp [wOps]
  have hok : runOk (mainModel wOps wParams wArgs wFs) = true := by rfl
  obtain ⟨_, htake, _, hle, _⟩ :=
    challenge_hash_prefix_written wOps wParams wArgs wFs h64 hok
  exact ⟨h64, hok, htake, hle⟩

/-- C10: the beacon seed is a constant compiled into the binary, so the RNG
seed words are a fixed constant and the keypair and the entire response
content depend only on the challenge bytes: two completed runs (any paths,
any other file-system contents) over byte-identical challenge files produce
the same RNG seed, transcript hash, keypair, and byte-identical response
files. -/
theorem response_determined_by_challenge (ops : CoreOps) (P : CeremonyParams)
    (p₁ c₁ r₁ : String) (fs₁ : Fs) (p₂ c₂ r₂ : String) (fs₂ : Fs)
    (h₁ : runOk (mainModel ops P [p₁, c₁, r₁] fs₁) = true)
    (h₂ : runOk (mainModel ops P [p₂, c₂, r₂] fs₂) = true)
    (hsame : fs₁ c₁ = fs₂ c₂) :
    runRngSeed (mainModel ops P [p₁, c₁, r₁] fs₁) = beaconRngSeedWords ∧
    runRngSeed (mainModel ops P [p₂, c₂, r₂] fs₂) = beaconRngSeedWords ∧
    runChallengeHash (mainModel ops P [p₁, c₁, r₁] fs₁) =
      runChallengeHash (mainModel ops P [p₂, c₂, r₂] fs₂) ∧
    runPubkey (mainModel ops P [p₁, c₁, r₁] fs₁) =
      runPubkey (mainModel ops P [p₂, c₂, r₂] fs₂) ∧
    runPrivkey (mainModel ops P [p₁, c₁, r₁] fs₁) =
      runPrivkey (mainModel ops P [p₂, c₂, r₂] fs₂) ∧
    runResponseBytes (mainModel ops P [p₁, c₁, r₁] fs₁) =
      runResponseBytes (mainModel ops P [p₂, c₂, r₂] fs₂) := by
  obtain ⟨ra, hma⟩ := runOk_exists h₁
  obtain ⟨rb, hmb⟩ := runOk_exists h₂
  obtain ⟨pa, ca, rpa, cba, ata, rba, haa, hca, hla, hra0, hta0, hta, hwa, hra⟩ :=
    mainModel_ok_inv hma
  obtain ⟨pb, cbn, rpb, cbb, atb, rbb, hab, hcb, hlb, hrb0, htb0, htb, hwb, hrb⟩ :=
    mainModel_ok_inv hmb
  obtain ⟨hpa, hca2, hra2⟩ : p₁ = pa ∧ c₁ = ca ∧ r₁ = rpa := by simpa using haa
  obtain ⟨hpb, hcb2, hrb2⟩ : p₂ = pb ∧ c₂ = cbn ∧ r₂ = rpb := by simpa using hab
  subst hca2
  subst hcb2
  have hcbeq : cba = cbb := by
    rw [hsame] at hca
    rw [hca] at hcb
    exact Option.some.inj hcb
  subst hcbeq
  have hateq : ata = atb := Option.some.inj (hta.symm.trans htb)
  subst hateq
  have hrbeq : rba = rbb := Option.some.inj (hwa.symm.trans hwb)
  subst hrbeq
  have hsa : ra.rngSeed = beaconRngSeedWords := by rw [hra]
  have hsb : rb.rngSeed = beaconRngSeedWords := by rw [hrb]
  have hha : ra.challengeHash = ops.calculateHash cba := by rw [hra]
  have hhb : rb.challengeHash = ops.calculateHash cba := by rw [hrb]
  have hpka : ra.pubkey =
      (ops.keypair beaconRngSeedWords (ops.calculateHash cba)).1 := by rw [hra]
  have hpkb : rb.pubkey =
      (ops.keypair beaconRngSeedWords (ops.calculateHash cba)).1 := by rw [hrb]
  have hska : ra.privkey =
      (ops.keypair beaconRngSeedWords (ops.calculateHash cba)).2 := by rw [hra]
  have hskb : rb.privkey =
      (ops.keypair beaconRngSeedWords (ops.calculateHash cba)).2 := by rw [hrb]
  have hrba : ra.responseBytes = rba := by rw [hra]
  have hrbb : rb.responseBytes = rba := by rw [hrb]
  rw [hma, hmb]
  refine ⟨hsa, hsb, ?_, ?_, ?_, ?_⟩
  · show ra.challengeHash = rb.challengeHash
    rw [hha, hhb]
  · show ra.pubkey = rb.pubkey
    rw [hpka, hpkb]
  · show ra.privkey = rb.privkey
    rw [hska, hskb]
  · show ra.responseBytes = rb.responseBytes
    rw [hrba, hrbb]

/-- Witness for C10: two fixture runs from byte-identical challenge files
under different paths. -/
theorem response_determined_by_challenge_witness :
    runOk (mainModel wOps wParams
      ["beacon_constrained", "challenge", "response"] wFs) = true ∧
    runOk (mainModel wOps wParams
      ["prog2", "challenge2", "response2"] wFs2) = true ∧
    wFs "challenge" = wFs2 "challenge2" ∧
    runResponseBytes (mainModel wOps wParams
      ["beacon_constrained", "challenge", "response"] wFs) =
      runResponseBytes (mainModel wOps wParams
        ["prog2", "challenge2", "response2"] wFs2) := by
  have hok1 : runOk (mainModel wOps wParams
      ["beacon_constrained", "challenge", "response"] wFs) = true := by rfl
  have hok2 : runOk (mainModel wOps wParams
      ["prog2", "challenge2", "response2"] wFs2) = true := by rfl
  have hsame : wFs "challenge" = wFs2 "challenge2" := rfl
  obtain ⟨_, _, _, _, _, hrbytes⟩ :=
    response_determined_by_challenge wOps wParams
      "beacon_constrained" "challenge" "response" wFs
      "prog2" "challenge2" "response2" wFs2 hok1 hok2 hsame
  exact ⟨hok1, hok2, hsame, hrbytes⟩
